import Mathlib

/-!
Verification of the AlgoTrader signal pipeline.

This file gives a shallow embedding of the core of the repository:

* `ml.py` — `MLFilter.enhance_signal` (model branch and fallback branch),
  with the signal dictionary modelled as a finite map `String → Option ℚ`,
  the classifier's positive-class probability as an abstract function, and
  the `np.random.uniform(0, 10)` jitter as an explicit parameter;
* `signal_generator.py` — the indicator functions `ema`, `sma`, `rsi`,
  `bollinger`, `atr`, `macd`, `classify_trend`, and the analyzer `analyze`;
  Python floats are modelled as exact rationals, `var ** 0.5` as
  `Real.sqrt`, Python's bankers `round(x, n)` as exact half-even rounding
  on ℚ, and a Python exception (the `ZeroDivisionError` that
  `tf['atr'] / tf['close']` can raise) as `Except.error`;
* `engine.py` — the ranking-and-selection step of `TradingEngine.run_once`
  (`signals.sort(key=..., reverse=True)` followed by `signals[:top_n]`),
  with Python's stable sort modelled by insertion sort.

Network fetching (`get_candles`) is handled by making the per-timeframe
candle lists inputs of `analyze`; the `time` field of a produced signal
(`datetime.now`) is wall-clock state and is omitted from the record.
-/

/-! ## Rounding: Python's `round(x, n)` (round half to even) on exact rationals -/

/-- Round a rational to the nearest integer, ties to even (Python's `round`). -/
def rhe (q : ℚ) : ℤ :=
  let f := ⌊q⌋
  let r := q - f
  if r < 1/2 then f
  else if 1/2 < r then f + 1
  else if f % 2 = 0 then f else f + 1

/-- `round(q, n)` of Python on exact rationals. -/
def roundN (n : ℕ) (q : ℚ) : ℚ := (rhe (q * 10 ^ n) : ℚ) / 10 ^ n

/-! ## `ml.py`: `MLFilter.enhance_signal`

A signal dictionary is a finite map from string keys to rational values
(`None` = key absent).  `int(...)` is Python's truncation toward zero. -/

/-- A Python signal `dict`: string keys, numeric values. -/
def Dict : Type := String → Option ℚ

/-- Python `int(q)`: truncation toward zero. -/
def intTrunc (q : ℚ) : ℤ := if 0 ≤ q then ⌊q⌋ else -⌊-q⌋

/-- `MLFilter.enhance_signal`.  `model?` is the loaded model as the map from
the input signal to the positive-class probability
`model.predict_proba(features)[0][1]` (with `features` extracted from the
signal); `jitter` is the sampled `np.random.uniform(0, 10)`.  The model
branch writes `score = round(prob * 100, 2)` and
`confidence = int(min(score + jitter, 100))`; the fallback branch writes
`score = signal.get("score", 60)` and
`confidence = signal.get("confidence", 70)`. -/
def enhance_signal (model? : Option (Dict → ℚ)) (jitter : ℚ) (signal : Dict) : Dict :=
  match model? with
  | some predict =>
    let score := roundN 2 (predict signal * 100)
    fun k =>
      if k = "score" then some score
      else if k = "confidence" then some ((intTrunc (min (score + jitter) 100) : ℤ) : ℚ)
      else signal k
  | none =>
    fun k =>
      if k = "score" then some ((signal "score").getD 60)
      else if k = "confidence" then some ((signal "confidence").getD 70)
      else signal k

/-! ## `signal_generator.py`: indicators -/

/-- Python `prices[-n:]` (for `n ≥ 1`). -/
def lastN (n : ℕ) (l : List ℚ) : List ℚ := l.drop (l.length - n)

/-- `ema(prices, period)`. -/
def ema (prices : List ℚ) (period : ℕ) : Option ℚ :=
  if prices.length < period then none
  else
    let mult : ℚ := 2 / ((period : ℚ) + 1)
    some ((prices.drop period).foldl (fun val p => (p - val) * mult + val)
      ((prices.take period).sum / (period : ℚ)))

/-- `sma(prices, period)`. -/
def sma (prices : List ℚ) (period : ℕ) : Option ℚ :=
  if prices.length ≥ period then some ((lastN period prices).sum / (period : ℚ)) else none

/-- `rsi(prices, period)`: gains/losses of the first `period` deltas,
average loss floored by `1e-10` before the division. -/
def rsi (prices : List ℚ) (period : ℕ) : Option ℚ :=
  if prices.length < period + 1 then none
  else
    let window := prices.take (period + 1)
    let deltas := window.tail.zipWith (· - ·) window
    let ag := ((deltas.map (fun d => max d 0)).sum) / (period : ℚ)
    let al := ((deltas.map (fun d => max (-d) 0)).sum) / (period : ℚ)
    let rs := ag / (al + 1 / 10000000000)
    some (100 - 100 / (1 + rs))

/-- `bollinger(prices, period, sd)`: `(mid + sd*std, mid, mid - sd*std)`
with `std = var ** 0.5` the population standard deviation of the last
`period` samples (an irrational real in general, hence `Real.sqrt`). -/
noncomputable def bollinger (prices : List ℚ) (period : ℕ) (sd : ℚ) :
    Option ℝ × Option ℝ × Option ℝ :=
  match sma prices period with
  | none => (none, none, none)
  | some mid =>
    let var : ℚ := ((lastN period prices).map (fun p => (p - mid) ^ 2)).sum / (period : ℚ)
    let std : ℝ := Real.sqrt ((var : ℚ) : ℝ)
    (some (((mid : ℚ) : ℝ) + ((sd : ℚ) : ℝ) * std), some (((mid : ℚ) : ℝ)),
     some (((mid : ℚ) : ℝ) - ((sd : ℚ) : ℝ) * std))

/-- `atr(highs, lows, closes, period)`: true ranges of
`zip(highs[1:], lows[1:], closes[:-1])` (the zip truncates to the shortest
list, so passing `closes` unshortened is equivalent), then Wilder
smoothing. -/
def atr (highs lows closes : List ℚ) (period : ℕ) : Option ℚ :=
  if highs.length < period + 1 then none
  else
    let trs := (highs.tail.zip ((lows.tail).zip closes)).map
      (fun hlc => max (hlc.1 - hlc.2.1) (max |hlc.1 - hlc.2.2| |hlc.2.1 - hlc.2.2|))
    let init := (trs.take period).sum / (period : ℚ)
    some ((trs.drop period).foldl
      (fun val t => (val * ((period : ℚ) - 1) + t) / (period : ℚ)) init)

/-- `macd(prices)`: `fast - slow if fast and slow else None`.  Python
truthiness: a `0.0` EMA is falsy, so the sentinel is also returned when
either EMA is exactly zero. -/
def macd (prices : List ℚ) : Option ℚ :=
  match ema prices 12, ema prices 26 with
  | some fast, some slow => if fast ≠ 0 ∧ slow ≠ 0 then some (fast - slow) else none
  | _, _ => none

/-- `classify_trend(ema9, ema21, sma20)`.  Python truthiness: a missing
(`None`) or exactly-zero argument sends the classification to `"Scalp"`. -/
def classify_trend (ema9v ema21v sma20v : Option ℚ) : String :=
  match ema9v, ema21v, sma20v with
  | some a, some b, some c =>
    if a ≠ 0 ∧ b ≠ 0 ∧ c ≠ 0 then
      if a > b ∧ b > c then "Trend"
      else if a > b then "Swing"
      else "Scalp"
    else "Scalp"
  | _, _, _ => "Scalp"

/-! ## `signal_generator.py`: the analyzer -/

/-- One OHLCV candle as produced by `get_candles`. -/
structure Candle where
  high : ℚ
  low : ℚ
  close : ℚ
  volume : ℚ
deriving DecidableEq

/-- `LONG` / `SHORT`. -/
inductive Side where
  | LONG
  | SHORT
deriving DecidableEq

/-- The per-timeframe indicator snapshot `data[tf]` built by `analyze`.
`close` and `volume` are `closes[-1]` and `volumes[-1]`; `analyze` only
builds a snapshot after checking `len(candles) ≥ 30`, so the `getD 0`
default for the last element of an empty list is never reached there. -/
structure Snap where
  close : ℚ
  ema9 : Option ℚ
  ema21 : Option ℚ
  sma20 : Option ℚ
  rsi : Option ℚ
  macd : Option ℚ
  bbUp : Option ℝ
  bbMid : Option ℝ
  bbLow : Option ℝ
  atr : Option ℚ
  volume : ℚ

/-- Build `data[tf]` from the candles of one timeframe. -/
noncomputable def snapshot (candles : List Candle) : Snap :=
  let closes := candles.map Candle.close
  let volumes := candles.map Candle.volume
  let highs := candles.map Candle.high
  let lows := candles.map Candle.low
  { close := (closes.getLast?).getD 0
    ema9 := ema closes 9
    ema21 := ema closes 21
    sma20 := sma closes 20
    rsi := rsi closes 14
    macd := macd closes
    bbUp := (bollinger closes 20 2).1
    bbMid := (bollinger closes 20 2).2.1
    bbLow := (bollinger closes 20 2).2.2
    atr := atr highs lows closes 14
    volume := (volumes.getLast?).getD 0 }

/-- One timeframe's directional vote: close above the upper band → LONG,
below the lower band → SHORT, else above/below `ema21`; no vote when the
close sits exactly on `ema21` inside the bands. -/
noncomputable def vote (close ema21v : ℚ) (bbUpV bbLowV : ℝ) : Option Side :=
  if ((close : ℚ) : ℝ) > bbUpV then some Side.LONG
  else if ((close : ℚ) : ℝ) < bbLowV then some Side.SHORT
  else if close > ema21v then some Side.LONG
  else if close < ema21v then some Side.SHORT
  else none

/-- The vote a snapshot casts (`none` both when a required field is
missing and when the snapshot abstains). -/
noncomputable def voteOf (s : Snap) : Option Side :=
  match s.ema21, s.bbUp, s.bbLow with
  | some e, some u, some l => vote s.close e u l
  | _, _, _ => none

/-- The `sides` list of `analyze`: walk the snapshots in timeframe order;
abort (`none`, modelling `return None`) if a snapshot misses `ema21` /
`bb_up` / `bb_low`; an abstaining snapshot appends nothing. -/
noncomputable def collectSides : List Snap → Option (List Side)
  | [] => some []
  | s :: rest =>
    match s.ema21, s.bbUp, s.bbLow with
    | some e, some u, some l =>
      match collectSides rest with
      | none => none
      | some tail =>
        match vote s.close e u l with
        | some sd => some (sd :: tail)
        | none => some tail
    | _, _, _ => none

/-- Python `min(values, key=lambda x: abs(x - price), default=None)`:
first minimum wins. -/
def minByDist (price : ℚ) (l : List ℚ) : Option ℚ :=
  l.foldl (fun acc v =>
    match acc with
    | none => some v
    | some b => if |v - price| < |b - price| then some v else some b) none

/-- The record returned by `analyze` (the `datetime.now` field omitted). -/
structure Signal where
  symbol : String
  side : Side
  type : String
  score : ℚ
  entry : ℚ
  tp : ℚ
  sl : ℚ
  trail : ℚ
  margin : ℚ
  market : ℚ
  liq : ℚ
  bbSlope : String
deriving DecidableEq

/-- The body of `analyze` after the per-timeframe snapshots are built.
`Except.error` models the `ZeroDivisionError` of `tf['atr'] / tf['close']`
when the 1h reference close is zero (the only statement of `analyze` that
can raise on numeric candle data); `.ok none` models `return None`.  The
`tf['close'] is None` test of the source is always false here since the
close of a fetched candle is a number.  The two `.ok none` fallbacks
marked unreachable correspond to states the source cannot reach either
(`sides[0]` is only read when `len(set(sides)) == 1`, and the 1h band
fields were already required present when collecting the votes). -/
noncomputable def analyzeSnaps (symbol : String) (s15 s1h s4h : Snap) :
    Except String (Option Signal) :=
  if s1h.volume < 1000 then .ok none
  else
    match s1h.atr with
    | none => .ok none
    | some atr1 =>
      if s1h.close = 0 then .error "ZeroDivisionError"
      else if atr1 / s1h.close < 1/1000 then .ok none
      else
        match s1h.rsi with
        | none => .ok none
        | some rsi1 =>
          if ¬ (20 < rsi1 ∧ rsi1 < 80) then .ok none
          else
            match collectSides [s15, s1h, s4h] with
            | none => .ok none
            | some sides =>
              if sides.dedup.length ≠ 1 then .ok none
              else
                match sides with
                | [] => .ok none   -- unreachable
                | side :: _ =>
                  match s1h.bbUp, s1h.bbLow with
                  | some u, some l =>
                    .ok (some
                      { symbol := symbol
                        side := side
                        type := classify_trend s1h.ema9 s1h.ema21 s1h.sma20
                        score := roundN 1
                          (((match s1h.macd with
                             | some m => if m > 0 then (3 : ℚ)/10 else 0
                             | none => 0)
                            + (if rsi1 < 30 ∨ rsi1 > 70 then (2 : ℚ)/10 else 0)
                            + (if (if ((s1h.close : ℚ) : ℝ) > u then "Up"
                                   else if ((s1h.close : ℚ) : ℝ) < l then "Down"
                                   else "No") ≠ "No" then (3 : ℚ)/10 else 1/10)
                            + (if classify_trend s1h.ema9 s1h.ema21 s1h.sma20 = "Trend"
                               then (2 : ℚ)/10 else 1/10)) * 100)
                        entry :=
                          match minByDist s1h.close
                              ([s1h.sma20, s1h.ema9, s1h.ema21].filterMap id) with
                          | some e => roundN 6 e
                          | none => 0   -- dead: `analyze` returns before this
                        tp :=
                          match minByDist s1h.close
                              ([s1h.sma20, s1h.ema9, s1h.ema21].filterMap id) with
                          | some e => roundN 6
                              (e * (if side = Side.LONG then 1015/1000 else 985/1000))
                          | none => 0
                        sl :=
                          match minByDist s1h.close
                              ([s1h.sma20, s1h.ema9, s1h.ema21].filterMap id) with
                          | some e => roundN 6
                              (e * (if side = Side.LONG then 985/1000 else 1015/1000))
                          | none => 0
                        trail :=
                          match minByDist s1h.close
                              ([s1h.sma20, s1h.ema9, s1h.ema21].filterMap id) with
                          | some e => roundN 6
                              (if side = Side.LONG then e * (1 - 2/1000)
                               else e * (1 + 2/1000))
                          | none => 0
                        margin := roundN 6 ((100 * (15/100)) / 20)
                        market := s1h.close
                        liq :=
                          match minByDist s1h.close
                              ([s1h.sma20, s1h.ema9, s1h.ema21].filterMap id) with
                          | some e => roundN 6
                              (if side = Side.LONG then e * (1 - 1/20)
                               else e * (1 + 1/20))
                          | none => 0
                        bbSlope :=
                          if ((s1h.close : ℚ) : ℝ) > u then "Up"
                          else if ((s1h.close : ℚ) : ℝ) < l then "Down"
                          else "No" })
                  | _, _ => .ok none   -- unreachable

/-- `analyze(symbol)`, with the three fetched candle lists (15m, 1h, 4h)
as inputs.  The source aborts with `None` as soon as one timeframe has
fewer than 30 candles, before the entry-selection guard; the
`entry is None` early return of the source is represented inside
`analyzeSnaps` only through the (dead) fallbacks, because with 30 candles
per timeframe the three entry sources are always present. -/
noncomputable def analyze (symbol : String) (c15 c1h c4h : List Candle) :
    Except String (Option Signal) :=
  if c15.length < 30 then .ok none
  else if c1h.length < 30 then .ok none
  else if c4h.length < 30 then .ok none
  else analyzeSnaps symbol (snapshot c15) (snapshot c1h) (snapshot c4h)

/-! ## `engine.py`: ranking and selection -/

/-- An enhanced signal as seen by the ranking step: its score plus a tag
standing for the rest of the record (so that stability is observable). -/
structure ESig where
  score : ℚ
  tag : ℕ
deriving DecidableEq

/-- The descending-by-score order used by
`signals.sort(key=lambda x: x.get("score", 0), reverse=True)`. -/
def scoreGe (a b : ESig) : Prop := b.score ≤ a.score

instance : DecidableRel scoreGe := fun a b => inferInstanceAs (Decidable (b.score ≤ a.score))

instance : IsTotal ESig scoreGe := ⟨fun a b => le_total b.score a.score⟩

instance : IsTrans ESig scoreGe := ⟨fun _ _ _ h1 h2 => le_trans h2 h1⟩

/-- Python's stable descending sort, modelled by insertion sort. -/
def sortByScoreDesc (l : List ESig) : List ESig := List.insertionSort scoreGe l

/-- The ranking-and-selection step of `TradingEngine.run_once`: on an
empty list return `[]` at once; otherwise sort by score descending
(stable) and truncate to `top_n`. -/
def rank_and_select (signals : List ESig) (top_n : ℕ) : List ESig :=
  if signals = [] then [] else (sortByScoreDesc signals).take top_n


/-! ## Spec-side definitions for the Bollinger width claim -/

/-- The population variance, as the spec describes it (mean over the
window, squared deviations averaged over the window length). -/
def popVariance (l : List ℚ) : ℚ :=
  ((l.map (fun p => (p - l.sum / (l.length : ℚ)) ^ 2)).sum) / (l.length : ℚ)

/-- The population standard deviation of a window, as the spec describes
it. -/
noncomputable def popStdDev (l : List ℚ) : ℝ :=
  Real.sqrt (((popVariance l : ℚ) : ℝ))


/-! ## Concrete candle data used as witnesses and counterexamples

`candlesS` alternates around 100 and ends with a breakout close of 101: all
1h filters pass and every timeframe votes LONG via `close > ema21`.
`candlesT` is the same series scaled by `10⁻⁷` (volumes unchanged): the
filters and votes are scale-invariant, but the price levels collapse under
6-decimal rounding.  `candlesC` is a constant series: its snapshot casts
no vote.  `candlesF` ends with a close of `0`, reaching the
`atr / close` division.  `candlesW` is a short list for the no-raise
witness. -/

def candlesS : List Candle :=
  [⟨101, 99, 100, 2000⟩, ⟨102, 100, 101, 2000⟩, ⟨101, 99, 100, 2000⟩, ⟨102, 100, 101, 2000⟩,
   ⟨101, 99, 100, 2000⟩, ⟨102, 100, 101, 2000⟩, ⟨101, 99, 100, 2000⟩, ⟨102, 100, 101, 2000⟩,
   ⟨101, 99, 100, 2000⟩, ⟨102, 100, 101, 2000⟩,
   ⟨100, 98, 99, 2000⟩, ⟨102, 100, 101, 2000⟩, ⟨100, 98, 99, 2000⟩, ⟨102, 100, 101, 2000⟩,
   ⟨100, 98, 99, 2000⟩, ⟨102, 100, 101, 2000⟩, ⟨100, 98, 99, 2000⟩, ⟨102, 100, 101, 2000⟩,
   ⟨100, 98, 99, 2000⟩, ⟨102, 100, 101, 2000⟩,
   ⟨100, 98, 99, 2000⟩, ⟨102, 100, 101, 2000⟩, ⟨100, 98, 99, 2000⟩, ⟨102, 100, 101, 2000⟩,
   ⟨100, 98, 99, 2000⟩, ⟨102, 100, 101, 2000⟩, ⟨100, 98, 99, 2000⟩, ⟨102, 100, 101, 2000⟩,
   ⟨100, 98, 99, 2000⟩, ⟨102, 100, 101, 2000⟩]

def snapS : Snap :=
  { close := 101
    ema9 := some (85930453954714229/858306884765625)
    ema21 := some (4959048098791/49516901511)
    sma20 := some 100
    rsi := some (1500000000000/31666666669)
    macd := some (-12366092456639326624246115/239053655703820755847475556)
    bbUp := some (((102 : ℚ) : ℝ))
    bbMid := some (((100 : ℚ) : ℝ))
    bbLow := some (((98 : ℚ) : ℝ))
    atr := some (6073186976301296595/2177953337809371136)
    volume := 2000 }

def sigS : Signal :=
  { symbol := "X", side := Side.LONG, type := "Scalp", score := 20,
    entry := 20029719/200000, tp := 12706353/125000, sl := 49323183/500000,
    trail := 99948297/1000000, margin := 3/4, market := 101,
    liq := 19028233/200000, bbSlope := "No" }

def candlesT : List Candle :=
  [⟨101/10000000, 99/10000000, 1/100000, 2000⟩, ⟨102/10000000, 1/100000, 101/10000000, 2000⟩,
   ⟨101/10000000, 99/10000000, 1/100000, 2000⟩, ⟨102/10000000, 1/100000, 101/10000000, 2000⟩,
   ⟨101/10000000, 99/10000000, 1/100000, 2000⟩, ⟨102/10000000, 1/100000, 101/10000000, 2000⟩,
   ⟨101/10000000, 99/10000000, 1/100000, 2000⟩, ⟨102/10000000, 1/100000, 101/10000000, 2000⟩,
   ⟨101/10000000, 99/10000000, 1/100000, 2000⟩, ⟨102/10000000, 1/100000, 101/10000000, 2000⟩,
   ⟨1/100000, 98/10000000, 99/10000000, 2000⟩, ⟨102/10000000, 1/100000, 101/10000000, 2000⟩,
   ⟨1/100000, 98/10000000, 99/10000000, 2000⟩, ⟨102/10000000, 1/100000, 101/10000000, 2000⟩,
   ⟨1/100000, 98/10000000, 99/10000000, 2000⟩, ⟨102/10000000, 1/100000, 101/10000000, 2000⟩,
   ⟨1/100000, 98/10000000, 99/10000000, 2000⟩, ⟨102/10000000, 1/100000, 101/10000000, 2000⟩,
   ⟨1/100000, 98/10000000, 99/10000000, 2000⟩, ⟨102/10000000, 1/100000, 101/10000000, 2000⟩,
   ⟨1/100000, 98/10000000, 99/10000000, 2000⟩, ⟨102/10000000, 1/100000, 101/10000000, 2000⟩,
   ⟨1/100000, 98/10000000, 99/10000000, 2000⟩, ⟨102/10000000, 1/100000, 101/10000000, 2000⟩,
   ⟨1/100000, 98/10000000, 99/10000000, 2000⟩, ⟨102/10000000, 1/100000, 101/10000000, 2000⟩,
   ⟨1/100000, 98/10000000, 99/10000000, 2000⟩, ⟨102/10000000, 1/100000, 101/10000000, 2000⟩,
   ⟨1/100000, 98/10000000, 99/10000000, 2000⟩, ⟨102/10000000, 1/100000, 101/10000000, 2000⟩]

def snapT : Snap :=
  { close := 101/10000000
    ema9 := some (85930453954714229/8583068847656250000000)
    ema21 := some (4959048098791/495169015110000000)
    sma20 := some (1/100000)
    rsi := some (150000/3169)
    macd := some (-2473218491327865324849223/478107311407641511694951112000000)
    bbUp := some (((51/5000000 : ℚ) : ℝ))
    bbMid := some (((1/100000 : ℚ) : ℝ))
    bbLow := some (((49/5000000 : ℚ) : ℝ))
    atr := some (1214637395260259319/4355906675618742272000000)
    volume := 2000 }

def sigT : Signal :=
  { symbol := "X", side := Side.LONG, type := "Scalp", score := 20,
    entry := 1/100000, tp := 1/100000, sl := 1/100000,
    trail := 1/100000, margin := 3/4, market := 101/10000000,
    liq := 1/100000, bbSlope := "No" }

def candlesC : List Candle :=
  [⟨100, 100, 100, 2000⟩,
   ⟨100, 100, 100, 2000⟩,
   ⟨100, 100, 100, 2000⟩,
   ⟨100, 100, 100, 2000⟩,
   ⟨100, 100, 100, 2000⟩,
   ⟨100, 100, 100, 2000⟩,
   ⟨100, 100, 100, 2000⟩,
   ⟨100, 100, 100, 2000⟩,
   ⟨100, 100, 100, 2000⟩,
   ⟨100, 100, 100, 2000⟩,
   ⟨100, 100, 100, 2000⟩,
   ⟨100, 100, 100, 2000⟩,
   ⟨100, 100, 100, 2000⟩,
   ⟨100, 100, 100, 2000⟩,
   ⟨100, 100, 100, 2000⟩,
   ⟨100, 100, 100, 2000⟩,
   ⟨100, 100, 100, 2000⟩,
   ⟨100, 100, 100, 2000⟩,
   ⟨100, 100, 100, 2000⟩,
   ⟨100, 100, 100, 2000⟩,
   ⟨100, 100, 100, 2000⟩,
   ⟨100, 100, 100, 2000⟩,
   ⟨100, 100, 100, 2000⟩,
   ⟨100, 100, 100, 2000⟩,
   ⟨100, 100, 100, 2000⟩,
   ⟨100, 100, 100, 2000⟩,
   ⟨100, 100, 100, 2000⟩,
   ⟨100, 100, 100, 2000⟩,
   ⟨100, 100, 100, 2000⟩,
   ⟨100, 100, 100, 2000⟩]

def snapC : Snap :=
  { close := 100
    ema9 := some 100
    ema21 := some 100
    sma20 := some 100
    rsi := some 0
    macd := some 0
    bbUp := some (((100 : ℚ) : ℝ))
    bbMid := some (((100 : ℚ) : ℝ))
    bbLow := some (((100 : ℚ) : ℝ))
    atr := some 0
    volume := 2000 }

def candlesF : List Candle :=
  [⟨2, 0, 1, 2000⟩,
   ⟨2, 0, 1, 2000⟩,
   ⟨2, 0, 1, 2000⟩,
   ⟨2, 0, 1, 2000⟩,
   ⟨2, 0, 1, 2000⟩,
   ⟨2, 0, 1, 2000⟩,
   ⟨2, 0, 1, 2000⟩,
   ⟨2, 0, 1, 2000⟩,
   ⟨2, 0, 1, 2000⟩,
   ⟨2, 0, 1, 2000⟩,
   ⟨2, 0, 1, 2000⟩,
   ⟨2, 0, 1, 2000⟩,
   ⟨2, 0, 1, 2000⟩,
   ⟨2, 0, 1, 2000⟩,
   ⟨2, 0, 1, 2000⟩,
   ⟨2, 0, 1, 2000⟩,
   ⟨2, 0, 1, 2000⟩,
   ⟨2, 0, 1, 2000⟩,
   ⟨2, 0, 1, 2000⟩,
   ⟨2, 0, 1, 2000⟩,
   ⟨2, 0, 1, 2000⟩,
   ⟨2, 0, 1, 2000⟩,
   ⟨2, 0, 1, 2000⟩,
   ⟨2, 0, 1, 2000⟩,
   ⟨2, 0, 1, 2000⟩,
   ⟨2, 0, 1, 2000⟩,
   ⟨2, 0, 1, 2000⟩,
   ⟨2, 0, 1, 2000⟩,
   ⟨2, 0, 1, 2000⟩,
   ⟨1, 0, 0, 2000⟩]

def candlesW : List Candle := [⟨2, 0, 1, 2000⟩]

def zeros26 : List ℚ :=
  [0, 0, 0, 0, 0, 0, 0, 0, 0, 0, 0, 0, 0, 0, 0, 0, 0, 0, 0, 0, 0, 0, 0, 0, 0, 0]

def ones26 : List ℚ :=
  [1, 1, 1, 1, 1, 1, 1, 1, 1, 1, 1, 1, 1, 1, 1, 1, 1, 1, 1, 1, 1, 1, 1, 1, 1, 1]

def inc15 : List ℚ := [0, 1, 2, 3, 4, 5, 6, 7, 8, 9, 10, 11, 12, 13, 14]

def flat20 : List ℚ :=
  [5, 5, 5, 5, 5, 5, 5, 5, 5, 5, 5, 5, 5, 5, 5, 5, 5, 5, 5, 5]


/-! ## Theorems -/

lemma bollinger_eval (prices : List ℚ) (m v r u lo : ℚ)
    (hm : sma prices 20 = some m)
    (hv : ((lastN 20 prices).map (fun p => (p - m) ^ 2)).sum / (20 : ℚ) = v)
    (hr0 : 0 ≤ r) (hr2 : r ^ 2 = v) (hu : m + 2 * r = u) (hlo : m - 2 * r = lo) :
    bollinger prices 20 2 =
      (some ((u : ℚ) : ℝ), some ((m : ℚ) : ℝ), some ((lo : ℚ) : ℝ)) := by
  unfold bollinger
  rw [hm]
  have h20 : (((20 : ℕ) : ℚ)) = (20 : ℚ) := by norm_num
  have hs : Real.sqrt ((((lastN 20 prices).map (fun p => (p - m) ^ 2)).sum / (((20 : ℕ)) : ℚ) : ℚ) : ℝ)
      = ((r : ℚ) : ℝ) := by
    rw [h20, hv, show ((v : ℚ) : ℝ) = ((r : ℚ) : ℝ) ^ 2 by push_cast [← hr2]; ring]
    exact Real.sqrt_sq (by exact_mod_cast hr0)
  simp only [hs]
  refine Prod.ext ?_ (Prod.ext ?_ ?_) <;> simp <;> push_cast [← hu, ← hlo] <;> ring

lemma snapshot_candlesS : snapshot candlesS = snapS := by
  have hb : bollinger (candlesS.map Candle.close) 20 2 =
      (some (((102 : ℚ) : ℝ)), some (((100 : ℚ) : ℝ)), some (((98 : ℚ) : ℝ))) :=
    bollinger_eval (candlesS.map Candle.close) 100 1 1 102 98
      (by norm_num [sma, lastN, candlesS])
      (by norm_num [lastN, candlesS]) (by norm_num) (by norm_num) (by norm_num) (by norm_num)
  unfold snapshot snapS
  simp only [Snap.mk.injEq, hb, and_true, true_and]
  refine ⟨?_, ?_, ?_, ?_, ?_, ?_, ?_, ?_⟩
  · norm_num [candlesS]
  · norm_num [ema, candlesS]
  · norm_num [ema, candlesS]
  · norm_num [sma, lastN, candlesS]
  · norm_num [rsi, candlesS]
  · norm_num [macd, ema, candlesS]
  · norm_num [atr, candlesS]
  · norm_num [candlesS]

lemma snapshot_candlesT : snapshot candlesT = snapT := by
  have hb : bollinger (candlesT.map Candle.close) 20 2 =
      (some (((51/5000000 : ℚ) : ℝ)), some (((1/100000 : ℚ) : ℝ)), some (((49/5000000 : ℚ) : ℝ))) :=
    bollinger_eval (candlesT.map Candle.close) (1/100000) (1/100000000000000) (1/10000000)
      (51/5000000) (49/5000000)
      (by norm_num [sma, lastN, candlesT])
      (by norm_num [lastN, candlesT]) (by norm_num) (by norm_num) (by norm_num) (by norm_num)
  unfold snapshot snapT
  simp only [Snap.mk.injEq, hb, and_true, true_and]
  refine ⟨?_, ?_, ?_, ?_, ?_, ?_, ?_, ?_⟩
  · norm_num [candlesT]
  · norm_num [ema, candlesT]
  · norm_num [ema, candlesT]
  · norm_num [sma, lastN, candlesT]
  · norm_num [rsi, candlesT]
  · norm_num [macd, ema, candlesT]
  · norm_num [atr, candlesT, abs_of_nonneg, abs_of_nonpos, max_def]
  · norm_num [candlesT]

lemma analyze_TTT : analyze "X" candlesT candlesT candlesT = .ok (some sigT) := by
  have hlen : ¬ (candlesT.length < 30) := by decide
  unfold analyze
  rw [if_neg hlen, if_neg hlen, if_neg hlen, snapshot_candlesT]
  unfold analyzeSnaps
  norm_num +decide [snapT, sigT, collectSides, vote, minByDist, classify_trend, roundN, rhe,
    Rat.cast_lt, List.dedup, List.filterMap_cons, List.filterMap_nil, abs_of_nonneg,
    abs_of_nonpos]

lemma snapshot_candlesC : snapshot candlesC = snapC := by
  have hb : bollinger (candlesC.map Candle.close) 20 2 =
      (some (((100 : ℚ) : ℝ)), some (((100 : ℚ) : ℝ)), some (((100 : ℚ) : ℝ))) :=
    bollinger_eval (candlesC.map Candle.close) 100 0 0 100 100
      (by norm_num [sma, lastN, candlesC])
      (by norm_num [lastN, candlesC]) (by norm_num) (by norm_num) (by norm_num) (by norm_num)
  unfold snapshot snapC
  simp only [Snap.mk.injEq, hb, and_true, true_and]
  refine ⟨?_, ?_, ?_, ?_, ?_, ?_, ?_, ?_⟩
  · norm_num [candlesC]
  · norm_num [ema, candlesC]
  · norm_num [ema, candlesC]
  · norm_num [sma, lastN, candlesC]
  · norm_num [rsi, candlesC]
  · norm_num [macd, ema, candlesC]
  · norm_num [atr, candlesC, abs_of_nonneg, abs_of_nonpos, max_def]
  · norm_num [candlesC]

lemma analyze_CSS : analyze "X" candlesC candlesS candlesS = .ok (some sigS) := by
  have hlenC : ¬ (candlesC.length < 30) := by decide
  have hlenS : ¬ (candlesS.length < 30) := by decide
  unfold analyze
  rw [if_neg hlenC, if_neg hlenS, if_neg hlenS, snapshot_candlesC, snapshot_candlesS]
  unfold analyzeSnaps
  norm_num +decide [snapC, snapS, sigS, collectSides, vote, minByDist, classify_trend, roundN,
    rhe, Rat.cast_lt, List.dedup, List.filterMap_cons, List.filterMap_nil, abs_of_nonneg,
    abs_of_nonpos]

lemma voteOf_snapC : voteOf (snapshot candlesC) = none := by
  rw [snapshot_candlesC]
  unfold voteOf snapC
  norm_num [vote, Rat.cast_lt]

lemma snapshotF_volume : (snapshot candlesF).volume = 2000 := by
  unfold snapshot
  norm_num [candlesF]

lemma snapshotF_atr : (snapshot candlesF).atr = some (27/14) := by
  unfold snapshot
  norm_num [atr, candlesF, abs_of_nonneg, abs_of_nonpos, max_def]

lemma snapshotF_close : (snapshot candlesF).close = 0 := by
  unfold snapshot
  norm_num [candlesF]

lemma analyze_FFF : analyze "X" candlesF candlesF candlesF = .error "ZeroDivisionError" := by
  have hlen : ¬ (candlesF.length < 30) := by decide
  unfold analyze
  rw [if_neg hlen, if_neg hlen, if_neg hlen]
  unfold analyzeSnaps
  rw [snapshotF_atr, snapshotF_close, snapshotF_volume]
  norm_num

lemma minByDist_aux (price : ℚ) (l : List ℚ) (b : ℚ) :
    ∃ e, l.foldl (fun acc v =>
      match acc with
      | none => some v
      | some b => if |v - price| < |b - price| then some v else some b) (some b) = some e := by
  induction l generalizing b with
  | nil => exact ⟨b, rfl⟩
  | cons x xs ih =>
    simp only [List.foldl_cons]
    split
    · exact ih x
    · exact ih b

lemma minByDist_some (price : ℚ) (x : ℚ) (l : List ℚ) :
    ∃ e, minByDist price (x :: l) = some e := by
  unfold minByDist
  simp only [List.foldl_cons]
  exact minByDist_aux price l x

lemma ema_some (prices : List ℚ) (period : ℕ) (h : ¬ (prices.length < period)) :
    ∃ v, ema prices period = some v := by
  unfold ema
  rw [if_neg h]
  exact ⟨_, rfl⟩

lemma sma_some (prices : List ℚ) (period : ℕ) (h : prices.length ≥ period) :
    ∃ v, sma prices period = some v := by
  unfold sma
  rw [if_pos h]
  exact ⟨_, rfl⟩

lemma dedup_length_one {α : Type} [DecidableEq α] (l : List α) (h : l.dedup.length = 1) :
    ∀ x ∈ l, ∀ y ∈ l, x = y := by
  obtain ⟨z, hz⟩ := List.length_eq_one.mp h
  intro x hx y hy
  have hxz : x = z := by
    have := List.mem_dedup.mpr hx
    rw [hz] at this
    simpa using this
  have hyz : y = z := by
    have := List.mem_dedup.mpr hy
    rw [hz] at this
    simpa using this
  rw [hxz, hyz]

lemma analyze_ok_inv (sym : String) (a b c : List Candle) (sig : Signal)
    (h : analyze sym a b c = .ok (some sig)) :
    ∃ sides rest e,
      collectSides [snapshot a, snapshot b, snapshot c] = some sides ∧
      sides.dedup.length = 1 ∧
      sides = sig.side :: rest ∧
      minByDist (snapshot b).close
        ([(snapshot b).sma20, (snapshot b).ema9, (snapshot b).ema21].filterMap id) = some e ∧
      sig.entry = roundN 6 e ∧
      sig.tp = roundN 6 (e * (if sig.side = Side.LONG then 1015/1000 else 985/1000)) ∧
      sig.sl = roundN 6 (e * (if sig.side = Side.LONG then 985/1000 else 1015/1000)) := by
  unfold analyze at h
  split at h
  · exact absurd h (by simp)
  split at h
  · exact absurd h (by simp)
  split at h
  · exact absurd h (by simp)
  rename_i h1 h2 h3
  have hlb : ∃ e0, minByDist (snapshot b).close
      ([(snapshot b).sma20, (snapshot b).ema9, (snapshot b).ema21].filterMap id) = some e0 := by
    have hlen : (b.map Candle.close).length ≥ 20 := by
      simp only [List.length_map]; omega
    obtain ⟨v, hv⟩ := sma_some (b.map Candle.close) 20 hlen
    have hv2 : (snapshot b).sma20 = some v := by
      unfold snapshot
      simpa using hv
    rw [hv2]
    simp only [List.filterMap_cons, id]
    exact minByDist_some _ _ _
  obtain ⟨e0, he0⟩ := hlb
  unfold analyzeSnaps at h
  split at h
  · exact absurd h (by simp)
  split at h
  · exact absurd h (by simp)
  split at h
  · exact absurd h (by simp)
  split at h
  · exact absurd h (by simp)
  split at h
  · exact absurd h (by simp)
  split at h
  · exact absurd h (by simp)
  split at h
  · exact absurd h (by simp)
  rename_i sides hsides
  split at h
  · exact absurd h (by simp)
  rename_i hdedup
  split at h
  · exact absurd h (by simp)
  rename_i hd tl
  split at h
  rotate_left
  · exact absurd h (by simp)
  rename_i u l hbb
  rw [he0] at h
  simp only [Except.ok.injEq, Option.some.injEq] at h
  subst h
  refine ⟨hd :: tl, tl, e0, hsides, by omega, rfl, he0, rfl, rfl, rfl⟩

lemma rhe_bound (q : ℚ) : |(rhe q : ℚ) - q| ≤ 1/2 := by
  unfold rhe
  have hfl : (⌊q⌋ : ℚ) ≤ q := Int.floor_le q
  have hfu : q < (⌊q⌋ : ℚ) + 1 := Int.lt_floor_add_one q
  dsimp only
  split
  · rename_i hr
    rw [abs_le]
    constructor <;> linarith
  split
  · rename_i hr1 hr2
    push_cast
    rw [abs_le]
    constructor <;> linarith
  · rename_i hr1 hr2
    have hr : q - (⌊q⌋ : ℚ) = 1/2 := by linarith
    split
    · rw [abs_le]; constructor <;> linarith
    · push_cast
      rw [abs_le]
      constructor <;> linarith

lemma roundN_bound (n : ℕ) (q : ℚ) : |roundN n q - q| ≤ 1 / (2 * 10 ^ n) := by
  unfold roundN
  have h := rhe_bound (q * 10 ^ n)
  have hpow : (0:ℚ) < 10 ^ n := by positivity
  have : (rhe (q * 10 ^ n) : ℚ) / 10 ^ n - q = ((rhe (q * 10 ^ n) : ℚ) - q * 10 ^ n) / 10 ^ n := by
    field_simp <;> ring
  rw [this, abs_div, abs_of_pos hpow, div_le_div_iff hpow (by positivity)]
  calc |(rhe (q * 10 ^ n) : ℚ) - q * 10 ^ n| * (2 * 10 ^ n)
      ≤ (1/2) * (2 * 10 ^ n) := by
        apply mul_le_mul_of_nonneg_right h (by positivity)
    _ = 1 * 10 ^ n := by ring

/-- C1 (amended): levels are positive and correctly ordered whenever the
rounded entry is at least `1/10000`. -/
theorem analyze_levels_ordered (sym : String) (a b c : List Candle) (sig : Signal)
    (h : analyze sym a b c = .ok (some sig)) (hent : 1/10000 ≤ sig.entry) :
    0 < sig.sl ∧ 0 < sig.entry ∧ 0 < sig.tp ∧
    (sig.side = Side.LONG → sig.sl < sig.entry ∧ sig.entry < sig.tp) ∧
    (sig.side = Side.SHORT → sig.tp < sig.entry ∧ sig.entry < sig.sl) := by
  obtain ⟨sides, rest, e, hsides, hded, hcons, hmin, hentry, htp, hsl⟩ :=
    analyze_ok_inv sym a b c sig h
  have hb1 := abs_le.mp (roundN_bound 6 e)
  have hb2 := abs_le.mp (roundN_bound 6 (e * (1015/1000)))
  have hb3 := abs_le.mp (roundN_bound 6 (e * (985/1000)))
  have he : 199/2000000 ≤ e := by
    rw [hentry] at hent
    have h12 := hb1.2
    norm_num at h12 ⊢
    linarith
  have hLS : sig.side = Side.LONG ∨ sig.side = Side.SHORT := by
    cases hx : sig.side
    · exact Or.inl rfl
    · exact Or.inr rfl
  rcases hLS with hside | hside
  · rw [hside] at htp hsl ⊢
    rw [if_pos rfl] at htp hsl
    rw [hentry, htp, hsl]
    have h11 := hb1.1
    have h12 := hb1.2
    have h21 := hb2.1
    have h22 := hb2.2
    have h31 := hb3.1
    have h32 := hb3.2
    norm_num at h11 h12 h21 h22 h31 h32
    refine ⟨by linarith, by linarith, by linarith,
      fun _ => ⟨by linarith, by linarith⟩, fun hc => Side.noConfusion hc⟩
  · rw [hside] at htp hsl ⊢
    rw [if_neg (fun hc => Side.noConfusion hc)] at htp hsl
    rw [hentry, htp, hsl]
    have h11 := hb1.1
    have h12 := hb1.2
    have h21 := hb2.1
    have h22 := hb2.2
    have h31 := hb3.1
    have h32 := hb3.2
    norm_num at h11 h12 h21 h22 h31 h32
    refine ⟨by linarith, by linarith, by linarith,
      fun hc => Side.noConfusion hc, fun _ => ⟨by linarith, by linarith⟩⟩

/-- C1 witness. -/
theorem analyze_levels_ordered_witness :
    0 < sigS.sl ∧ 0 < sigS.entry ∧ 0 < sigS.tp ∧
    (sigS.side = Side.LONG → sigS.sl < sigS.entry ∧ sigS.entry < sigS.tp) ∧
    (sigS.side = Side.SHORT → sigS.tp < sigS.entry ∧ sigS.entry < sigS.sl) :=
  analyze_levels_ordered "X" candlesC candlesS candlesS sigS analyze_CSS (by norm_num [sigS])

/-- C1 counterexample: at tiny prices the 6-decimal rounding collapses
the levels. -/
theorem analyze_levels_claim_false :
    ¬ (∀ (sym : String) (a b c : List Candle) (sig : Signal),
        analyze sym a b c = .ok (some sig) →
        0 < sig.entry ∧ 0 < sig.tp ∧ 0 < sig.sl ∧
        (sig.side = Side.LONG → sig.sl < sig.entry ∧ sig.entry < sig.tp) ∧
        (sig.side = Side.SHORT → sig.tp < sig.entry ∧ sig.entry < sig.sl)) := by
  intro hall
  obtain ⟨-, -, -, hlong, -⟩ := hall "X" candlesT candlesT candlesT sigT analyze_TTT
  have h2 := (hlong rfl).2
  norm_num [sigT] at h2

lemma collectSides_eq_filterMap (l : List Snap) (sides : List Side)
    (h : collectSides l = some sides) : sides = l.filterMap voteOf := by
  induction l generalizing sides with
  | nil =>
    unfold collectSides at h
    simp only [Option.some.injEq] at h
    simp [← h]
  | cons s rest ih =>
    unfold collectSides at h
    cases he : s.ema21 with
    | none => rw [he] at h; exact absurd h (by simp)
    | some ev =>
      cases hu : s.bbUp with
      | none => rw [he, hu] at h; exact absurd h (by simp)
      | some uv =>
        cases hl : s.bbLow with
        | none => rw [he, hu, hl] at h; exact absurd h (by simp)
        | some lv =>
          rw [he, hu, hl] at h
          dsimp only at h
          cases hrec : collectSides rest with
          | none => rw [hrec] at h; exact absurd h (by simp)
          | some tail =>
            rw [hrec] at h
            dsimp only at h
            have hvo : voteOf s = vote s.close ev uv lv := by
              unfold voteOf
              rw [he, hu, hl]
            cases hv : vote s.close ev uv lv with
            | none =>
              rw [hv] at h
              dsimp only at h
              simp only [Option.some.injEq] at h
              subst h
              simp only [List.filterMap_cons, hvo, hv]
              exact ih tail hrec
            | some sd =>
              rw [hv] at h
              dsimp only at h
              simp only [Option.some.injEq] at h
              subst h
              simp only [List.filterMap_cons, hvo, hv, List.cons.injEq, true_and]
              exact ih tail hrec

/-- C2 (amended): a produced signal requires every cast vote to equal its
side, with at least one timeframe voting; abstaining timeframes do not
block the consensus. -/
theorem analyze_consensus (sym : String) (a b c : List Candle) (sig : Signal)
    (h : analyze sym a b c = .ok (some sig)) :
    (∀ sn ∈ [snapshot a, snapshot b, snapshot c],
      voteOf sn = none ∨ voteOf sn = some sig.side) ∧
    (∃ sn ∈ [snapshot a, snapshot b, snapshot c], voteOf sn = some sig.side) := by
  obtain ⟨sides, rest, e, hsides, hded, hcons, -, -, -, -⟩ := analyze_ok_inv sym a b c sig h
  have hfm : sides = [snapshot a, snapshot b, snapshot c].filterMap voteOf :=
    collectSides_eq_filterMap _ _ hsides
  have hall := dedup_length_one sides hded
  have hmem : sig.side ∈ sides := by rw [hcons]; exact List.mem_cons_self _ _
  constructor
  · intro sn hsn
    cases hv : voteOf sn with
    | none => exact Or.inl rfl
    | some v =>
      refine Or.inr ?_
      have hvmem : v ∈ sides := by
        rw [hfm]
        exact List.mem_filterMap.mpr ⟨sn, hsn, hv⟩
      rw [hall v hvmem sig.side hmem]
  · rw [hfm] at hmem
    obtain ⟨sn, hsn, hv⟩ := List.mem_filterMap.mp hmem
    exact ⟨sn, hsn, hv⟩

/-- C2 witness. -/
theorem analyze_consensus_witness :
    (∀ sn ∈ [snapshot candlesC, snapshot candlesS, snapshot candlesS],
      voteOf sn = none ∨ voteOf sn = some sigS.side) ∧
    (∃ sn ∈ [snapshot candlesC, snapshot candlesS, snapshot candlesS],
      voteOf sn = some sigS.side) :=
  analyze_consensus "X" candlesC candlesS candlesS sigS analyze_CSS

/-- C2 counterexample: a signal can be produced although one timeframe
casts no vote at all. -/
theorem analyze_consensus_claim_false :
    ¬ (∀ (sym : String) (a b c : List Candle) (sig : Signal),
        analyze sym a b c = .ok (some sig) →
        ∀ sn ∈ [snapshot a, snapshot b, snapshot c], voteOf sn = some sig.side) := by
  intro hall
  have := hall "X" candlesC candlesS candlesS sigS analyze_CSS (snapshot candlesC) (by simp)
  rw [voteOf_snapC] at this
  exact Option.noConfusion this

/-- C9 (amended): `analyze` only raises when the reference timeframe's
last close is zero; whenever that close is nonzero it returns an explicit
result (a signal or the absence `none`). -/
lemma analyze_error_inv (sym : String) (a b c : List Candle) (msg : String)
    (h : analyze sym a b c = .error msg) : (snapshot b).close = 0 := by
  unfold analyze at h
  split at h
  · exact absurd h (by simp)
  split at h
  · exact absurd h (by simp)
  split at h
  · exact absurd h (by simp)
  unfold analyzeSnaps at h
  split at h
  · exact absurd h (by simp)
  split at h
  · exact absurd h (by simp)
  split at h
  · assumption
  split at h
  · exact absurd h (by simp)
  split at h
  · exact absurd h (by simp)
  split at h
  · exact absurd h (by simp)
  split at h
  · exact absurd h (by simp)
  split at h
  · exact absurd h (by simp)
  split at h
  · exact absurd h (by simp)
  split at h
  · exact absurd h (by simp)
  · exact absurd h (by simp)

theorem analyze_no_raise (sym : String) (a b c : List Candle)
    (hc : (snapshot b).close ≠ 0) :
    ∃ r, analyze sym a b c = .ok r := by
  cases hres : analyze sym a b c with
  | ok r => exact ⟨r, rfl⟩
  | error msg => exact absurd (analyze_error_inv sym a b c msg hres) hc

/-- C9 witness. -/
theorem analyze_no_raise_witness : ∃ r, analyze "W" candlesW candlesW candlesW = .ok r :=
  analyze_no_raise "W" candlesW candlesW candlesW
    (by unfold snapshot; norm_num [candlesW])

/-- C9 counterexample: with all-numeric candles whose 1h close is `0`,
`analyze` raises a `ZeroDivisionError` instead of returning an absence. -/
theorem analyze_no_raise_claim_false :
    ¬ (∀ (sym : String) (a b c : List Candle), ∃ r, analyze sym a b c = .ok r) := by
  intro hall
  obtain ⟨r, hr⟩ := hall "X" candlesF candlesF candlesF
  rw [analyze_FFF] at hr
  exact Except.noConfusion hr

lemma rhe_nonneg (q : ℚ) (h : 0 ≤ q) : 0 ≤ rhe q := by
  unfold rhe
  dsimp only
  have hf : (0 : ℤ) ≤ ⌊q⌋ := Int.floor_nonneg.mpr h
  split
  · exact hf
  split
  · omega
  split
  · exact hf
  · omega

lemma roundN_nonneg (n : ℕ) (q : ℚ) (h : 0 ≤ q) : 0 ≤ roundN n q := by
  unfold roundN
  have h1 : 0 ≤ rhe (q * 10 ^ n) := rhe_nonneg _ (by positivity)
  positivity

/-- C3 (amended): with a model, `score = round(p*100, 2)` and `confidence`
is the integer truncation (floor, for these nonnegative quantities) of
`min(score + jitter, 100)`. -/
theorem enhance_signal_model_spec (predict : Dict → ℚ) (j : ℚ) (s : Dict)
    (hp : 0 ≤ predict s) (hj0 : 0 ≤ j) (hj10 : j < 10) :
    (enhance_signal (some predict) j s) "score" = some (roundN 2 (predict s * 100)) ∧
    ∃ c : ℤ, (enhance_signal (some predict) j s) "confidence" = some ((c : ℤ) : ℚ) ∧
      c = ⌊min (roundN 2 (predict s * 100) + j) 100⌋ ∧
      ((c : ℤ) : ℚ) ≤ min (roundN 2 (predict s * 100) + j) 100 ∧
      min (roundN 2 (predict s * 100) + j) 100 - 1 < ((c : ℤ) : ℚ) := by
  have hsc : 0 ≤ roundN 2 (predict s * 100) := roundN_nonneg 2 _ (by positivity)
  have hmin : 0 ≤ min (roundN 2 (predict s * 100) + j) 100 := by
    apply le_min <;> linarith
  have htr : intTrunc (min (roundN 2 (predict s * 100) + j) 100) =
      ⌊min (roundN 2 (predict s * 100) + j) 100⌋ := by
    unfold intTrunc
    rw [if_pos hmin]
  constructor
  · simp +decide [enhance_signal]
  · refine ⟨⌊min (roundN 2 (predict s * 100) + j) 100⌋, ?_, rfl,
      Int.floor_le _, Int.sub_one_lt_floor _⟩
    simp +decide [enhance_signal, htr]

/-- C3 witness. -/
theorem enhance_signal_model_spec_witness :
    (enhance_signal (some (fun _ => (4/5 : ℚ))) (1/2) (fun _ => none)) "score" =
      some (roundN 2 ((4/5 : ℚ) * 100)) ∧
    ∃ c : ℤ, (enhance_signal (some (fun _ => (4/5 : ℚ))) (1/2) (fun _ => none)) "confidence" =
        some ((c : ℤ) : ℚ) ∧
      c = ⌊min (roundN 2 ((4/5 : ℚ) * 100) + 1/2) 100⌋ ∧
      ((c : ℤ) : ℚ) ≤ min (roundN 2 ((4/5 : ℚ) * 100) + 1/2) 100 ∧
      min (roundN 2 ((4/5 : ℚ) * 100) + 1/2) 100 - 1 < ((c : ℤ) : ℚ) :=
  enhance_signal_model_spec (fun _ => (4/5 : ℚ)) (1/2) (fun _ => none)
    (by norm_num) (by norm_num) (by norm_num)

/-- C3 counterexample: the code truncates the jittered confidence with
`int(...)`, so `confidence` is not `min(score + jitter, 100)` itself. -/
theorem enhance_signal_model_claim_false :
    ¬ (∀ (predict : Dict → ℚ) (j : ℚ) (s : Dict), 0 ≤ j → j < 10 →
        (enhance_signal (some predict) j s) "score" = some (roundN 2 (predict s * 100)) ∧
        (enhance_signal (some predict) j s) "confidence" =
          some (min (roundN 2 (predict s * 100) + j) 100)) := by
  intro hall
  have h := (hall (fun _ => (4/5 : ℚ)) (1/2) (fun _ => none) (by norm_num) (by norm_num)).2
  have hr : roundN 2 ((4/5 : ℚ) * 100) = 80 := by norm_num [roundN, rhe]
  rw [hr] at h
  simp +decide [enhance_signal, intTrunc, hr] at h
  norm_num [min_def] at h

/-- C4 (amended): with no model, `enhance_signal` is deterministic
(jitter-independent), keeps an existing `score` (default 60) and keeps an
existing `confidence` (default 70); in particular a rule score of 55 is
kept. -/
theorem enhance_signal_fallback_spec (j : ℚ) (s : Dict) :
    (enhance_signal none j s) "score" = some ((s "score").getD 60) ∧
    (enhance_signal none j s) "confidence" = some ((s "confidence").getD 70) ∧
    (∀ j2 : ℚ, enhance_signal none j s = enhance_signal none j2 s) ∧
    (enhance_signal none 0 (fun k => if k = "score" then some 55 else none)) "score" =
      some 55 := by
  refine ⟨?_, ?_, fun j2 => rfl, ?_⟩
  · simp +decide [enhance_signal]
  · simp +decide [enhance_signal]
  · simp +decide [enhance_signal]

/-- C4 counterexample: the fallback confidence is not a fixed default; an
existing `confidence` key of the input is kept as is. -/
theorem enhance_signal_fallback_claim_false :
    ¬ (∃ c : ℚ, ∀ s : Dict, (enhance_signal none 0 s) "confidence" = some c) := by
  rintro ⟨c, hc⟩
  have h1 := hc (fun _ => none)
  have h2 := hc (fun k => if k = "confidence" then some (10 : ℚ) else none)
  simp +decide [enhance_signal] at h1 h2
  rw [← h1] at h2
  norm_num at h2

/-- C10: `enhance_signal` writes at most the keys `"score"` and
`"confidence"`; every other key keeps its input value, in both branches. -/
theorem enhance_signal_frame (model? : Option (Dict → ℚ)) (j : ℚ) (s : Dict)
    (k : String) (h1 : k ≠ "score") (h2 : k ≠ "confidence") :
    (enhance_signal model? j s) k = s k := by
  cases model? <;> simp [enhance_signal, h1, h2]

/-- C10 witness. -/
theorem enhance_signal_frame_witness :
    (enhance_signal none 0 (fun _ => none)) "entry" = (fun _ : String => (none : Option ℚ)) "entry" :=
  enhance_signal_frame none 0 (fun _ => none) "entry" (by decide) (by decide)

lemma filter_orderedInsert (v : ℚ) (a : ESig) (l : List ESig) :
    (List.orderedInsert scoreGe a l).filter (fun x => decide (x.score = v)) =
      if a.score = v then a :: l.filter (fun x => decide (x.score = v))
      else l.filter (fun x => decide (x.score = v)) := by
  induction l with
  | nil =>
    by_cases hav : a.score = v <;> simp [List.orderedInsert, hav]
  | cons b t ih =>
    by_cases hr : scoreGe a b
    · rw [List.orderedInsert, if_pos hr]
      by_cases hav : a.score = v
      · simp [List.filter, hav]
      · simp [List.filter, hav]
    · rw [List.orderedInsert, if_neg hr]
      have hlt : a.score < b.score := by
        unfold scoreGe at hr
        linarith [lt_of_not_le hr]
      by_cases hav : a.score = v
      · have hbv : ¬ (b.score = v) := by
          intro hbv
          rw [hav] at hlt
          rw [hbv] at hlt
          exact lt_irrefl v hlt
        simp only [List.filter, hbv, decide_eq_true_eq, ih, hav, if_pos]
        simp [hbv]
      · simp only [List.filter, ih, hav, if_neg]
        simp
    

lemma filter_sortByScoreDesc (v : ℚ) (l : List ESig) :
    (sortByScoreDesc l).filter (fun x => decide (x.score = v)) =
      l.filter (fun x => decide (x.score = v)) := by
  induction l with
  | nil => rfl
  | cons a t ih =>
    unfold sortByScoreDesc at ih ⊢
    rw [List.insertionSort, filter_orderedInsert]
    by_cases hav : a.score = v
    · rw [if_pos hav, ih]
      simp [List.filter, hav]
    · rw [if_neg hav, ih]
      simp [List.filter, hav]

/-- C5: ranking sorts by score descending with a stable sort (ties keep
scan order, captured by filter preservation), truncates to `top_n`, and
maps the empty list to the empty list. -/
theorem rank_and_select_spec (l : List ESig) (n : ℕ) :
    rank_and_select l n = (sortByScoreDesc l).take n ∧
    (rank_and_select l n).length ≤ n ∧
    List.Sorted scoreGe (rank_and_select l n) ∧
    (sortByScoreDesc l).Perm l ∧
    (∀ v : ℚ, (sortByScoreDesc l).filter (fun x => decide (x.score = v)) =
      l.filter (fun x => decide (x.score = v))) ∧
    rank_and_select [] n = [] := by
  have heq : rank_and_select l n = (sortByScoreDesc l).take n := by
    unfold rank_and_select
    split
    · rename_i hnil
      subst hnil
      simp [sortByScoreDesc, List.insertionSort]
    · rfl
  have hsorted : List.Sorted scoreGe (sortByScoreDesc l) := List.sorted_insertionSort scoreGe l
  refine ⟨heq, ?_, ?_, List.perm_insertionSort scoreGe l, fun v => filter_sortByScoreDesc v l, by simp [rank_and_select]⟩
  · rw [heq]
    exact List.length_take_le n _
  · rw [heq]
    exact List.Pairwise.sublist (List.take_sublist n _) hsorted

lemma ema_none_iff (prices : List ℚ) (period : ℕ) :
    ema prices period = none ↔ prices.length < period := by
  unfold ema
  split
  · rename_i hh
    simp [hh]
  · rename_i hh
    simp [hh]

/-- C6 (amended): `macd` is the sentinel iff the series is shorter than 26
or either EMA is exactly zero (Python truthiness); otherwise it is exactly
`ema12 − ema26`. -/
theorem macd_spec (prices : List ℚ) :
    (macd prices = none ↔
      prices.length < 26 ∨ ema prices 12 = some 0 ∨ ema prices 26 = some 0) ∧
    (∀ f s26, ema prices 12 = some f → ema prices 26 = some s26 →
      f ≠ 0 → s26 ≠ 0 → macd prices = some (f - s26)) := by
  constructor
  · cases h12 : ema prices 12 with
    | none =>
      have hl : prices.length < 12 := (ema_none_iff _ _).mp h12
      unfold macd
      rw [h12]
      dsimp only
      simp only [true_iff]
      exact Or.inl (by omega)
    | some f =>
      cases h26 : ema prices 26 with
      | none =>
        have hl : prices.length < 26 := (ema_none_iff _ _).mp h26
        unfold macd
        rw [h12, h26]
        dsimp only
        simp only [true_iff]
        exact Or.inl hl
      | some s26 =>
        have hl26 : ¬ (prices.length < 26) := by
          intro hh
          rw [(ema_none_iff prices 26).mpr hh] at h26
          exact Option.noConfusion h26
        unfold macd
        rw [h12, h26]
        dsimp only
        by_cases hf : f = 0
        · rw [if_neg (by simp [hf])]
          simp only [true_iff]
          exact Or.inr (Or.inl (by rw [hf]))
        · by_cases hs : s26 = 0
          · rw [if_neg (by simp [hs])]
            simp only [true_iff]
            exact Or.inr (Or.inr (by rw [hs]))
          · rw [if_pos ⟨hf, hs⟩]
            simp only [reduceCtorEq, false_iff]
            intro hrhs
            rcases hrhs with hcase | hcase | hcase
            · exact hl26 hcase
            · exact hf (Option.some.inj hcase)
            · exact hs (Option.some.inj hcase)
  · intro f s26 h12 h26 hf hs
    unfold macd
    rw [h12, h26]
    dsimp only
    rw [if_pos ⟨hf, hs⟩]

/-- C6 witness. -/
theorem macd_spec_witness : macd ones26 = some (1 - 1) :=
  (macd_spec ones26).2 1 1 (by norm_num [ema, ones26]) (by norm_num [ema, ones26])
    (by norm_num) (by norm_num)

/-- C6 counterexample: a 26-sample all-zero series has both EMAs defined
(and equal to zero), yet `macd` returns the sentinel because `0.0` is
falsy in Python. -/
theorem macd_claim_false :
    ¬ (∀ prices : List ℚ,
        (macd prices = none ↔ prices.length < 26) ∧
        (∀ f s26, ema prices 12 = some f → ema prices 26 = some s26 →
          macd prices = some (f - s26))) := by
  intro hall
  have hm : macd zeros26 = none := by norm_num [macd, ema, zeros26]
  have hlen := (hall zeros26).1.mp hm
  norm_num [zeros26] at hlen

lemma chain_deltas_pos (l : List ℚ) (h : List.Chain' (· < ·) l) :
    ∀ d ∈ l.tail.zipWith (· - ·) l, 0 < d := by
  induction l with
  | nil => intro d hd; simp at hd
  | cons a rest ih =>
    cases rest with
    | nil => intro d hd; simp at hd
    | cons b t =>
      intro d hd
      rw [List.chain'_cons] at h
      simp only [List.tail_cons, List.zipWith_cons_cons] at hd
      rcases List.mem_cons.mp hd with hd1 | hd2
      · rw [hd1]; linarith [h.1]
      · exact ih h.2 d (by simpa using hd2)

/-- C7 (amended): on a strictly increasing series of length at least 15,
`rsi` is defined (the epsilon floor prevents a division error) and lies
strictly between 0 and 100 — saturated near 100 for large gains, but
never exactly 100. -/
theorem rsi_increasing_spec (prices : List ℚ) (h : List.Chain' (· < ·) prices)
    (hlen : 15 ≤ prices.length) :
    ∃ v, rsi prices 14 = some v ∧ 0 < v ∧ v < 100 := by
  have hw : (prices.take 15).length = 15 := by rw [List.length_take]; omega
  have hch : List.Chain' (· < ·) (prices.take 15) := h.take 15
  have hpos := chain_deltas_pos _ hch
  have hlen14 : ((prices.take 15).tail.zipWith (· - ·) (prices.take 15)).length = 14 := by
    rw [List.length_zipWith, List.length_tail, hw]
    simp
  have hgain : 0 < (((prices.take 15).tail.zipWith (· - ·) (prices.take 15)).map
      (fun d => max d 0)).sum := by
    apply List.sum_pos
    · intro x hx
      obtain ⟨d, hd, rfl⟩ := List.mem_map.mp hx
      have hdp := hpos d hd
      rw [max_eq_left (le_of_lt hdp)]
      exact hdp
    · intro hcon
      have hcl := congrArg List.length hcon
      rw [List.length_map, hlen14] at hcl
      simp at hcl
  have hloss : ((((prices.take 15).tail.zipWith (· - ·) (prices.take 15)).map
      (fun d => max (-d) 0)).sum) = 0 := by
    apply List.sum_eq_zero
    intro x hx
    obtain ⟨d, hd, rfl⟩ := List.mem_map.mp hx
    have hdp := hpos d hd
    rw [max_eq_right (by linarith)]
  unfold rsi
  rw [if_neg (by omega)]
  dsimp only
  rw [hloss]
  set G := (((prices.take 15).tail.zipWith (· - ·) (prices.take 15)).map
      (fun d => max d 0)).sum with hG
  have hag : 0 < G / ((14 : ℕ) : ℚ) := by
    apply div_pos hgain
    norm_num
  have hrs : 0 < G / ((14 : ℕ) : ℚ) / (0 / ((14 : ℕ) : ℚ) + 1 / 10000000000) := by
    apply div_pos hag
    norm_num
  refine ⟨_, rfl, ?_, ?_⟩
  · have hfrac : 100 / (1 + G / ((14 : ℕ) : ℚ) / (0 / ((14 : ℕ) : ℚ) + 1 / 10000000000)) < 100 := by
      rw [div_lt_iff (by linarith)]
      nlinarith
    linarith
  · have hfrac : 0 < 100 / (1 + G / ((14 : ℕ) : ℚ) / (0 / ((14 : ℕ) : ℚ) + 1 / 10000000000)) := by
      apply div_pos (by norm_num)
      linarith
    linarith

/-- C7 witness. -/
theorem rsi_increasing_spec_witness : ∃ v, rsi inc15 14 = some v ∧ 0 < v ∧ v < 100 :=
  rsi_increasing_spec inc15 (by norm_num [inc15, List.chain'_cons, List.chain'_singleton]) (by norm_num [inc15])

/-- C7 counterexample: the RSI of `[0, 1, ..., 14]` is
`100 − 100/(1 + 10¹⁰)`, strictly below 100. -/
theorem rsi_claim_false :
    ¬ (∀ prices : List ℚ, List.Chain' (· < ·) prices → 15 ≤ prices.length →
        rsi prices 14 = some 100) := by
  intro hall
  have h := hall inc15 (by norm_num [inc15, List.chain'_cons, List.chain'_singleton]) (by norm_num [inc15])
  norm_num [rsi, inc15] at h

/-- C8: with at least 20 samples, `bollinger` returns a defined triple
whose width `upper − lower` is 4 population standard deviations of the
trailing 20-sample window and whose middle is that window's mean. -/
theorem bollinger_spec (prices : List ℚ) (h : 20 ≤ prices.length) :
    ∃ u m lo, bollinger prices 20 2 = (some u, some m, some lo) ∧
      u - lo = 4 * popStdDev (lastN 20 prices) ∧
      m = ((((lastN 20 prices).sum / 20 : ℚ)) : ℝ) := by
  have hl : (lastN 20 prices).length = 20 := by
    unfold lastN
    rw [List.length_drop]
    omega
  have hsma : sma prices 20 = some ((lastN 20 prices).sum / 20) := by
    unfold sma
    rw [if_pos h]
    norm_num
  unfold bollinger
  rw [hsma]
  dsimp only
  refine ⟨_, _, _, rfl, ?_, rfl⟩
  have hvar : ((lastN 20 prices).map (fun p => (p - (lastN 20 prices).sum / 20) ^ 2)).sum
      / ((20 : ℕ) : ℚ) = popVariance (lastN 20 prices) := by
    unfold popVariance
    rw [hl]
    norm_num
  have hsd : Real.sqrt ((((lastN 20 prices).map
        (fun p => (p - (lastN 20 prices).sum / 20) ^ 2)).sum / ((20 : ℕ) : ℚ) : ℚ) : ℝ)
      = popStdDev (lastN 20 prices) := by
    unfold popStdDev
    rw [hvar]
  rw [hsd]
  push_cast
  ring

/-- C8 witness. -/
theorem bollinger_spec_witness :
    ∃ u m lo, bollinger flat20 20 2 = (some u, some m, some lo) ∧
      u - lo = 4 * popStdDev (lastN 20 flat20) ∧
      m = ((((lastN 20 flat20).sum / 20 : ℚ)) : ℝ) :=
  bollinger_spec flat20 (by norm_num [flat20])
